import Mathlib

/-!
Verification of the agentic invoice-processing pipeline.

Shallow embedding of the Python sources:
  * `clientcase_matcher.py`  — CCN canonicalisation, contamination flag, matching
  * `universal_invoice_processor.py` — CCN annotation and the gatekeeper verdict
  * `regex_tools.py`         — amount-string parsing
  * `capstone_agents.py`     — retry wrapper, tiered self-correction merge,
                               line-item post-processing, final aggregation
  * `utils.py`               — correction-map application, allow-list enforcement

Machine reals (Python `float`) are modelled as exact rationals `ℚ`; the
properties verified here only use equality and order comparisons.  Strings are
handled through their character lists (`String.data`).  Python `str.upper` /
`str.lower` are modelled on basic latin letters, matching the data that flows
through the pipeline (ASCII code points), and `str.strip` strips the six ASCII
whitespace characters Python strips on such data.
-/

/-- Python truthiness of an optional string: `None` and `""` are falsy. -/
def optTruthy (o : Option String) : Bool :=
  match o with
  | none => false
  | some s => s != ""

/-- Python whitespace for `str.strip` (ASCII fragment): space, tab, LF, CR, VT, FF. -/
def isPySpace (c : Char) : Bool :=
  c.toNat = 32 ∨ c.toNat = 9 ∨ c.toNat = 10 ∨ c.toNat = 13 ∨ c.toNat = 11 ∨ c.toNat = 12

/-- Python `str.upper`, per character (basic latin letters, as in `Char.toUpper`). -/
def pyUpperChar (c : Char) : Char :=
  if 97 ≤ c.toNat ∧ c.toNat ≤ 122 then Char.ofNat (c.toNat - 32) else c

/-- Python `str.lower`, per character (basic latin letters). -/
def pyLowerChar (c : Char) : Char :=
  if 65 ≤ c.toNat ∧ c.toNat ≤ 90 then Char.ofNat (c.toNat + 32) else c

/-- Drop trailing characters satisfying `isPySpace` (right half of `str.strip`). -/
def dropTrailSpace (l : List Char) : List Char :=
  (l.reverse.dropWhile isPySpace).reverse

/-- Python `str.strip` on a character list. -/
def pyStripL (l : List Char) : List Char :=
  dropTrailSpace (l.dropWhile isPySpace)

/-- Python `str.strip` on a `String`. -/
def pyStrip (s : String) : String :=
  ⟨pyStripL s.data⟩

/-- Python `str.upper` on a `String`. -/
def pyUpper (s : String) : String :=
  ⟨s.data.map pyUpperChar⟩

/-- Python `str.lower` on a `String`. -/
def pyLower (s : String) : String :=
  ⟨s.data.map pyLowerChar⟩

/-- Is `pre` a prefix of `l`? (used for the substring test below). -/
def isPrefixL (pre l : List Char) : Bool :=
  match pre, l with
  | [], _ => true
  | _ :: _, [] => false
  | a :: t, b :: u => a = b && isPrefixL t u

/-- Python `needle in haystack` on character lists. -/
def containsSub (hay needle : List Char) : Bool :=
  match hay with
  | [] => isPrefixL needle []
  | _ :: t => isPrefixL needle hay || containsSub t needle

/-- Python `needle in haystack` for strings. -/
def pyInStr (needle hay : String) : Bool :=
  containsSub hay.data needle.data

/-- Deduplication with set semantics (keeps the last occurrence; the claims only
use membership, and the results below are always sorted afterwards). -/
def pyDedup : List String → List String
  | [] => []
  | a :: t => if a ∈ t then pyDedup t else a :: pyDedup t

/-- Deduplication keeping the first occurrence (Python `dict` key order). -/
def firstDedupAux : List String → List String → List String
  | [], _ => []
  | a :: t, seen => if a ∈ seen then firstDedupAux t seen else a :: firstDedupAux t (a :: seen)

/-- Deduplication keeping the first occurrence, as Python `dict.fromkeys`. -/
def firstDedup (l : List String) : List String :=
  firstDedupAux l []

/-- Lexicographic comparison of character lists by code point, as Python `<=` on `str`. -/
def charListLe : List Char → List Char → Bool
  | [], _ => true
  | _ :: _, [] => false
  | a :: s, b :: t => if a = b then charListLe s t else decide (a < b)

/-- Insertion step of an insertion sort on strings. -/
def insertStr (a : String) : List String → List String
  | [] => [a]
  | b :: t => if charListLe a.data b.data then a :: b :: t else b :: insertStr a t

/-- Insertion sort on strings (ascending, as Python `sorted`). -/
def insertionSortStr (l : List String) : List String :=
  l.foldr insertStr []

/-- Python `sorted(list(set(xs)))`: the ascending duplicate-free listing of the
elements of `xs`.  (On a duplicate-free list the ascending listing is unique,
so insertion sort after deduplication computes exactly Python's result.) -/
def pySortedSet (l : List String) : List String :=
  insertionSortStr (pyDedup l)

/-- Python `s.split(c)` on character lists (single-character separator). -/
def splitOnChar (c : Char) : List Char → List (List Char)
  | [] => [[]]
  | x :: t =>
    let r := splitOnChar c t
    if x = c then [] :: r
    else
      match r with
      | [] => [[x]]
      | g :: gs => (x :: g) :: gs

/-- Index of the last occurrence of `c` in `l`, as Python `str.rindex` (when present). -/
def rindexOf (c : Char) : List Char → Option Nat
  | [] => none
  | x :: t =>
    match rindexOf c t with
    | some i => some (i + 1)
    | none => if x = c then some 0 else none

/-- Is the character an ASCII digit `0`-`9`? -/
def isDigitChar (c : Char) : Bool :=
  48 ≤ c.toNat ∧ c.toNat ≤ 57

/-- Numeric value of an ASCII digit list, most significant first. -/
def digitsToNat (l : List Char) : Nat :=
  l.foldl (fun n c => 10 * n + (c.toNat - 48)) 0

/-- Python `float(s)` on the strings reachable in `_parse_amounts` (digits and
periods after cleaning): at most one period and at least one digit, read as an
exact rational.  Anything else raises in Python and is modelled as `none`. -/
def pyFloatL (l : List Char) : Option ℚ :=
  if l.all (fun c => isDigitChar c || c = '.') ∧ l.count '.' ≤ 1 ∧ l.any isDigitChar then
    match splitOnChar '.' l with
    | [i] => some ((digitsToNat i : ℚ))
    | [i, f] => some ((digitsToNat i : ℚ) + (digitsToNat f : ℚ) / (10 : ℚ) ^ f.length)
    | _ => none
  else none

/-! ## Case Matcher (`clientcase_matcher.py`) -/

/-- `MatchStatus` literal of `clientcase_matcher.py`. -/
inductive MatchStatus where
  | exact
  | fuzzyIoSwap
  | ambiguousIoSwap
  | unknown
deriving DecidableEq, Repr

/-- `Contamination` literal of `clientcase_matcher.py`. -/
inductive Contamination where
  | cNone
  | cIOnly
  | cOOnly
  | cIAndO
deriving DecidableEq, Repr

/-- The `MatchResult` dataclass of `clientcase_matcher.py`. -/
structure MatchResult where
  original_code : String
  matched_code : Option String
  match_status : MatchStatus
  match_confidence : ℚ
  contamination : Contamination
  candidates : List String
  notes : Option String
deriving DecidableEq, Repr

/-- Substitute `I → 1` / `O → 0` at one position, as the loop body of
`ClientCaseMatcher.canonical_case_number`. -/
def ioSwapChar (c : Char) : Char :=
  if c = 'I' then '1' else if c = 'O' then '0' else c

/-- Apply `ioSwapChar` at position `pos` when it is in range (the
`if pos < len(chars)` guard of the Python loop). -/
def swapAtPos (l : List Char) (pos : Nat) : List Char :=
  if h : pos < l.length then l.set pos (ioSwapChar (l.get ⟨pos, h⟩)) else l

/-- The three letter-position substitutions of `canonical_case_number`
(positions 0, 1, 5, applied in this order). -/
def canonSubs (l : List Char) : List Char :=
  swapAtPos (swapAtPos (swapAtPos l 0) 1) 5

/-- `ClientCaseMatcher.canonical_case_number` on a character list:
strip, uppercase, and if at least 11 characters remain substitute
`I → 1`, `O → 0` at the letter positions 0, 1 and 5. -/
def canonList (l : List Char) : List Char :=
  let c := (pyStripL l).map pyUpperChar
  if c.length < 11 then c else canonSubs c

/-- `ClientCaseMatcher.canonical_case_number`. -/
def canonical_case_number (code : String) : String :=
  ⟨canonList code.data⟩

/-- `ClientCaseMatcher.contamination_flag`: presence of `I` / `O` in the
upper-cased code. -/
def contamination_flag (code : String) : Contamination :=
  let c := code.data.map pyUpperChar
  let hasI := 'I' ∈ c
  let hasO := 'O' ∈ c
  if ¬hasI ∧ ¬hasO then .cNone
  else if hasI ∧ hasO then .cIAndO
  else if hasI then .cIOnly
  else .cOOnly

/-- In-memory state of a loaded `ClientCaseMatcher`: the stripped, non-empty
registry codes in CSV row order.  `valid_codes` is membership in this list and
`index_by_canon[k]` is the sublist of codes whose canonical form is `k` (the
loader appends each row to its canonical bucket in row order). -/
structure ClientCaseMatcher where
  codes : List String
deriving DecidableEq, Repr

/-- The canonical bucket `index_by_canon.get(k, [])`. -/
def ClientCaseMatcher.bucket (m : ClientCaseMatcher) (k : String) : List String :=
  m.codes.filter (fun v => canonical_case_number v = k)

/-- `ClientCaseMatcher.match` (named `matchCode`; `match` is a Lean keyword). -/
def ClientCaseMatcher.matchCode (m : ClientCaseMatcher) (code : String) : MatchResult :=
  let original := pyStrip code
  if original = "" then
    { original_code := original, matched_code := none, match_status := .unknown
      match_confidence := 0, contamination := .cNone, candidates := []
      notes := some "Empty or whitespace-only clientCaseNumber" }
  else if original ∈ m.codes then
    { original_code := original, matched_code := some original, match_status := .exact
      match_confidence := 1, contamination := contamination_flag original
      candidates := [original], notes := none }
  else
    let canon := canonical_case_number original
    match m.bucket canon with
    | [] =>
      { original_code := original, matched_code := none, match_status := .unknown
        match_confidence := 0, contamination := contamination_flag original
        candidates := [], notes := some "clientCaseNumber is not registered" }
    | [matched] =>
      { original_code := original, matched_code := some matched
        match_status := .fuzzyIoSwap, match_confidence := 3 / 4
        contamination := contamination_flag matched, candidates := [matched]
        notes := some "Matched via I/1 or O/0 canonical mapping" }
    | c1 :: c2 :: rest =>
      { original_code := original, matched_code := none
        match_status := .ambiguousIoSwap, match_confidence := 3 / 10
        contamination := .cNone, candidates := c1 :: c2 :: rest
        notes := some "Multiple possible matches for canonical form" }

/-! ## Pre-processor: CCN annotation and gatekeeper verdict
(`universal_invoice_processor.py`) -/

/-- `UniversalInvoiceExtractor.annotate_client_cases`: with no matcher (missing
registry) or no candidates it returns without writing the
`client_case_matches` entry (modelled as `none`); otherwise the entry maps each
distinct raw candidate, in first-occurrence order, to its match result
(Python `dict` key semantics). -/
def annotateClientCases (matcher : Option ClientCaseMatcher) (cases : List String) :
    Option (List (String × MatchResult)) :=
  match matcher with
  | none => none
  | some m =>
    if cases.isEmpty then none
    else some ((firstDedup cases).map (fun c => (c, m.matchCode c)))

/-- Result of `UniversalInvoiceExtractor._evaluate_client_case_verdict`. -/
structure VerdictSummary where
  verdict : String
  reason : String
  countExact : Nat
  countFuzzy : Nat
  countUnknown : Nat
  countAmbiguous : Nat
deriving DecidableEq, Repr

/-- Number of matches with the given status (the counting loop of
`_evaluate_client_case_verdict`; every `matchStatus` value is one of the four
counted keys). -/
def countStatus (ms : List (String × MatchResult)) (s : MatchStatus) : Nat :=
  ms.countP (fun p => p.2.match_status = s)

/-- `UniversalInvoiceExtractor._evaluate_client_case_verdict` on the
`client_case_matches` dict (already defaulted to `{}` when absent). -/
def evaluateClientCaseVerdict (ms : List (String × MatchResult)) : VerdictSummary :=
  if ms.isEmpty then
    { verdict := "reject"
      reason := "No clientCaseNumbers found; likely not a coaching invoice"
      countExact := 0, countFuzzy := 0, countUnknown := 0, countAmbiguous := 0 }
  else
    let ce := countStatus ms .exact
    let cf := countStatus ms .fuzzyIoSwap
    let cu := countStatus ms .unknown
    let ca := countStatus ms .ambiguousIoSwap
    if 0 < cu ∨ 0 < ca then
      { verdict := "reject"
        reason := "The invoice contains clientCaseNumbers that are either unknown or ambiguous. The sender must update the invoice with valid CCNs."
        countExact := ce, countFuzzy := cf, countUnknown := cu, countAmbiguous := ca }
    else if 0 < cf then
      { verdict := "needs_review"
        reason := "Invoice contains clientCaseNumbers with historical character errors (e.g., 1/I or 0/O swaps caused by the 2024-2025 bug). Characters 1 and 0 have now been auto-corrected to I and O."
        countExact := ce, countFuzzy := cf, countUnknown := cu, countAmbiguous := ca }
    else
      { verdict := "accept"
        reason := "All clientCaseNumbers are known and match exactly"
        countExact := ce, countFuzzy := cf, countUnknown := cu, countAmbiguous := ca }

/-- Verdict of `process_invoice` for one invoice: annotate the raw CCN
candidates, then evaluate, reading an absent `client_case_matches` entry as
`{}` (the `patterns_found.get("client_case_matches", {})` default). -/
def preprocessVerdict (matcher : Option ClientCaseMatcher) (ccnCandidates : List String) : String :=
  (evaluateClientCaseVerdict ((annotateClientCases matcher ccnCandidates).getD [])).verdict

/-- `ready_for_llm` of `save_results`: `is_coaching_invoice` (non-empty CCN
candidate list) and non-empty text and a non-reject verdict. -/
def readyForLLM (isCoaching : Bool) (textLength : Nat) (verdict : String) : Bool :=
  isCoaching && decide (0 < textLength) && verdict != "reject"

/-! ## Pattern library: amount parsing (`regex_tools.py`, `_parse_amounts`) -/

/-- Replace every comma by a period (`clean.replace(',', '.')`). -/
def commaToDot (l : List Char) : List Char :=
  l.map (fun c => if c = ',' then '.' else c)

/-- Remove every period (`clean.replace('.', '')`). -/
def stripDots (l : List Char) : List Char :=
  l.filter (fun c => ¬ c = '.')

/-- Remove every comma (`clean.replace(',', '')`). -/
def stripCommas (l : List Char) : List Char :=
  l.filter (fun c => ¬ c = ',')

/-- The body of `InvoiceRegexExtractor._parse_amounts` for one captured amount
string: remove spaces, decide the separator roles, and read the number
(`None` models the swallowed `float` exception). -/
def parseAmount (amount : String) : Option ℚ :=
  let clean := amount.data.filter (fun c => ¬ c = ' ')
  if ',' ∈ clean ∧ '.' ∈ clean then
    if (rindexOf ',' clean).getD 0 > (rindexOf '.' clean).getD 0 then
      pyFloatL (commaToDot (stripDots clean))
    else
      pyFloatL (stripCommas clean)
  else if ',' ∈ clean then
    if ((splitOnChar ',' clean).getD 1 []).length = 2 then
      pyFloatL (commaToDot clean)
    else
      pyFloatL (stripCommas clean)
  else
    pyFloatL clean

/-- `_parse_amounts` over the whole capture list: parses each string, drops
failures, and deduplicates keeping the first occurrence
(`list(dict.fromkeys(parsed))`). -/
def parseAmounts (captures : List String) : List ℚ :=
  ((captures.filterMap parseAmount).foldl
    (fun acc q => if q ∈ acc then acc else acc ++ [q]) [])

/-- Modelled from the spec: the specification's reading of the only-comma rule,
"it is the decimal separator iff the fractional group has exactly two digits";
the fractional group is the digit group after the *last* comma.  Kept for
comparison with the source, whose test uses the group after the first comma. -/
def specOnlyCommaDecimal (clean : List Char) : Bool :=
  ((splitOnChar ',' clean).getLastD []).length = 2

/-- Modelled from the spec: the only-comma branch of the number-parsing rule as
the spec words it, for comparison with `parseAmount`. -/
def specParseOnlyComma (clean : List Char) : Option ℚ :=
  if specOnlyCommaDecimal clean then pyFloatL (commaToDot clean)
  else pyFloatL (stripCommas clean)

/-! ## Data model of the orchestrator results

Modelled from the spec: the `llm_models.py` module (imported by
`capstone_agents.py` and `utils.py` for `InvoiceHeader`, `ClientCase`,
`InvoiceLLMResult`) is not part of the sources; its record shapes are given by
spec §3 "Final record" and by the field accesses in the sources. -/

/-- Modelled from the spec: the `InvoiceHeader` record of `llm_models.py`
(spec §3: administrative header fields, all optional). -/
structure InvoiceHeader where
  supplierName : Option String := none
  invoiceNumber : Option String := none
  invoiceDate : Option String := none
  kvkNumber : Option String := none
  vatNumber : Option String := none
deriving DecidableEq, Repr

/-- Modelled from the spec: one line item (`ClientCase` of `llm_models.py`;
spec §3 `{validatedCCN, rawCCN?, date?, durationHours?}`). -/
structure ClientCase where
  validatedClientCaseNumber : Option String := none
  rawClientCaseNumber : Option String := none
  date : Option String := none
  durationHours : Option ℚ := none
deriving DecidableEq, Repr

/-- `HeaderResult` of `capstone_agents.py`. -/
structure HeaderResult where
  invoiceHeader : InvoiceHeader
  isCoachingInvoice : Bool
deriving DecidableEq, Repr

/-- `LineItemsResult` of `capstone_agents.py`. -/
structure LineItemsResult where
  clientCases : List ClientCase := []
  clientCasesNoActivity : List String := []
deriving DecidableEq, Repr

/-- Modelled from the spec: the final record (`InvoiceLLMResult` of
`llm_models.py`, spec §3). -/
structure InvoiceLLMResult where
  invoiceHeader : InvoiceHeader
  isCoachingInvoice : Bool
  clientCases : List ClientCase
  clientCasesNoActivity : List String
deriving DecidableEq, Repr

/-! ## Post-processors (`capstone_agents.py`, `utils.py`) -/

/-- The zero-hours test of `_post_process_line_items`:
`case.durationHours is None or case.durationHours == 0`. -/
def zeroHours (c : ClientCase) : Bool :=
  match c.durationHours with
  | none => true
  | some q => q == 0

/-- The code a zero-hours line contributes to the no-activity set: its
validated number when that is truthy, nothing otherwise (and active lines
contribute nothing). -/
def movedCode (c : ClientCase) : Option String :=
  if zeroHours c then
    match c.validatedClientCaseNumber with
    | some v => if v = "" then none else some v
    | none => none
  else none

/-- `InvoiceOrchestrator._post_process_line_items`: the loop keeps the lines
with non-null non-zero hours in order (a filter) and adds the truthy validated
codes of the zero-hours lines to the no-activity set, which is then listed as
`sorted(list(set))`. -/
def postProcessLineItems (lr : LineItemsResult) : LineItemsResult :=
  { clientCases := lr.clientCases.filter (fun c => !(zeroHours c))
    clientCasesNoActivity :=
      pySortedSet (lr.clientCasesNoActivity ++ lr.clientCases.filterMap movedCode) }

/-- Correction of one line by `apply_client_case_corrections`: when the
validated number is a key of the correction map and differs from its image,
the raw field receives the old value and the validated field the image. -/
def applyCorrection (cmap : List (String × String)) (c : ClientCase) : ClientCase :=
  match c.validatedClientCaseNumber with
  | none => c
  | some raw =>
    match cmap.lookup raw with
    | none => c
    | some corrected =>
      if raw = corrected then c
      else { c with rawClientCaseNumber := some raw
                    validatedClientCaseNumber := some corrected }

/-- `utils.apply_client_case_corrections`: correct every line, map the
no-activity codes through the correction map, and re-list the no-activity set
as `sorted(list(set))`. -/
def applyClientCaseCorrections (r : InvoiceLLMResult) (cmap : List (String × String)) :
    InvoiceLLMResult :=
  { r with
    clientCases := r.clientCases.map (applyCorrection cmap)
    clientCasesNoActivity :=
      pySortedSet (r.clientCasesNoActivity.map (fun code => (cmap.lookup code).getD code)) }

/-- `utils.enforce_allowed_client_cases`: keep the lines whose validated number
is in the allowed set, keep the allowed no-activity codes, and re-list the
no-activity set as `sorted(list(set))`. -/
def enforceAllowedClientCases (r : InvoiceLLMResult) (allowed : List String) : InvoiceLLMResult :=
  { r with
    clientCases := r.clientCases.filter (fun c =>
      match c.validatedClientCaseNumber with
      | some v => v ∈ allowed
      | none => false)
    clientCasesNoActivity :=
      pySortedSet (r.clientCasesNoActivity.filter (fun code => code ∈ allowed)) }

/-- Assembly of the final record in `process_invoice` (lines 444-455): a failed
line-item agent is replaced by an empty `LineItemsResult`, a successful one is
post-processed, and the record is built from the header result. -/
def assembleResult (hr : HeaderResult) (lrOpt : Option LineItemsResult) : InvoiceLLMResult :=
  let lines :=
    match lrOpt with
    | none => ({} : LineItemsResult)
    | some lr => postProcessLineItems lr
  { invoiceHeader := hr.invoiceHeader
    isCoachingInvoice := hr.isCoachingInvoice
    clientCases := lines.clientCases
    clientCasesNoActivity := lines.clientCasesNoActivity }

/-- Tail of `process_invoice`: assemble, apply the correction map, enforce the
allow-list (valid form), return the final record. -/
def finalizeInvoice (hr : HeaderResult) (lrOpt : Option LineItemsResult)
    (cmap : List (String × String)) (allowed : List String) : InvoiceLLMResult :=
  enforceAllowedClientCases
    (applyClientCaseCorrections (assembleResult hr lrOpt) cmap) allowed

/-! ## Self-correction ladder (`process_invoice`, Tier 1 / Tier 2) -/

/-- Tier 1 of the self-correction ladder: fill `kvkNumber` / `vatNumber` from
the regex output when the regex found a value and the field is still falsy. -/
def tier1Fill (h : InvoiceHeader) (regexKvk regexVat : Option String) : InvoiceHeader :=
  let h1 := if optTruthy regexKvk && !(optTruthy h.kvkNumber) then
    { h with kvkNumber := regexKvk } else h
  if optTruthy regexVat && !(optTruthy h1.vatNumber) then
    { h1 with vatNumber := regexVat } else h1

/-- The Tier 2 trigger: after Tier 1, `kvkNumber` or `vatNumber` is still
falsy (`missing_kvk or missing_vat`). -/
def tier2Triggered (h : InvoiceHeader) : Bool :=
  !(optTruthy h.kvkNumber) || !(optTruthy h.vatNumber)

/-- The Tier 2 merge of `process_invoice` (lines 428-436): when the fallback
agent returned a header, its truthy `kvkNumber` and `vatNumber` overwrite the
current ones; all other fields are left as they were. -/
def tier2Merge (h : InvoiceHeader) (resp : Option HeaderResult) : InvoiceHeader :=
  match resp with
  | none => h
  | some nh =>
    let h1 := if optTruthy nh.invoiceHeader.kvkNumber then
      { h with kvkNumber := nh.invoiceHeader.kvkNumber } else h
    if optTruthy nh.invoiceHeader.vatNumber then
      { h1 with vatNumber := nh.invoiceHeader.vatNumber } else h1

/-! ## Agent-call resilience (`InvoiceOrchestrator._run_agent`) -/

/-- Outcome of one attempt of `_run_agent`: a validated result, or an exception
whose message is `str(e)`. -/
inductive AgentOutcome where
  | ok (v : Nat)
  | err (msg : String)
deriving DecidableEq, Repr

/-- The transience test of `_run_agent`: lower-case the message and look for
`"503"`, `"overloaded"`, `"429"` or `"unavailable"` as substrings. -/
def isTransientError (msg : String) : Bool :=
  let m := pyLower msg
  pyInStr "503" m || pyInStr "overloaded" m || pyInStr "429" m || pyInStr "unavailable" m

/-- Trace of one `_run_agent` call: the returned value (`None` on failure), the
number of attempts actually made, and the backoff sleeps performed, in order. -/
structure AgentRun where
  result : Option Nat
  attemptsMade : Nat
  waits : List Nat
deriving DecidableEq, Repr

/-- The retry loop of `_run_agent` from attempt index `attempt` with `fuel`
iterations left (`fuel = max_retries + 1 - attempt`): a success returns the
value; a transient failure before the last attempt sleeps `2 * 2 ** attempt`
and retries; any other failure ends the call with `None` (a non-transient
failure returns at once, a transient failure on the last attempt falls out of
the loop). -/
def runAgentFrom (outcomes : Nat → AgentOutcome) (maxRetries : Nat) :
    Nat → Nat → AgentRun
  | _, 0 => { result := none, attemptsMade := 0, waits := [] }
  | attempt, fuel + 1 =>
    match outcomes attempt with
    | .ok v => { result := some v, attemptsMade := 1, waits := [] }
    | .err msg =>
      if isTransientError msg ∧ attempt < maxRetries then
        let rest := runAgentFrom outcomes maxRetries (attempt + 1) fuel
        { result := rest.result, attemptsMade := rest.attemptsMade + 1
          waits := 2 * 2 ^ attempt :: rest.waits }
      else
        { result := none, attemptsMade := 1, waits := [] }

/-- One `_run_agent` call: the loop `for attempt in range(max_retries + 1)`. -/
def runAgent (outcomes : Nat → AgentOutcome) (maxRetries : Nat) : AgentRun :=
  runAgentFrom outcomes maxRetries 0 (maxRetries + 1)

/-- The `max_retries` default of `_run_agent`. -/
def defaultMaxRetries : Nat := 3

/-! ## Concrete data used by witnesses and counterexamples -/

/-- Header result whose header fields are all `None`. -/
def hrEmpty : HeaderResult := { invoiceHeader := {}, isCoachingInvoice := true }

/-- A line the LLM reported under its raw (pre-correction) code, 1.5 hours. -/
def lineRaw : ClientCase :=
  { validatedClientCaseNumber := some "JN16-121-284", durationHours := some 1 }

/-- Line-items result holding only `lineRaw`. -/
def lrRaw : LineItemsResult := { clientCases := [lineRaw] }

/-- Correction map of scenario S1: raw `JN16-121-284` to valid `JN16-I21-284`. -/
def cmapS1 : List (String × String) := [("JN16-121-284", "JN16-I21-284")]

/-- Allow-list (valid form) of scenario S1. -/
def allowedS1 : List String := ["JN16-I21-284"]

/-- The corrected line expected in the final record of scenario S1. -/
def lineCorrected : ClientCase :=
  { validatedClientCaseNumber := some "JN16-I21-284"
    rawClientCaseNumber := some "JN16-121-284", durationHours := some 1 }

/-- A zero-information line: no validated code, no hours. -/
def lineNullEmpty : ClientCase := {}

/-- A line with a negative duration. -/
def lineNegative : ClientCase :=
  { validatedClientCaseNumber := some "AB12-C34-567", durationHours := some (-1) }

/-- Input of the C4 counterexample: a null-hours line without a code, and a
negative-hours line. -/
def lrC4 : LineItemsResult := { clientCases := [lineNullEmpty, lineNegative] }

/-- A null-hours line with a truthy validated code (C4 witness). -/
def lineNullCoded : ClientCase :=
  { validatedClientCaseNumber := some "AB12-C34-567", durationHours := none }

/-- Input of the C4 witness. -/
def lrC4w : LineItemsResult := { clientCases := [lineNullCoded] }

/-- A zero-hours line whose validated code is the empty string (C10). -/
def lineZeroEmptyCode : ClientCase :=
  { validatedClientCaseNumber := some "", durationHours := some 0 }

/-- A retained active line (C10). -/
def lineKept : ClientCase :=
  { validatedClientCaseNumber := some "AB12-C34-567", durationHours := some 2 }

/-- Input of the C10 witness. -/
def lrC10 : LineItemsResult := { clientCases := [lineZeroEmptyCode, lineKept] }

/-- A CCN-shaped candidate list for an otherwise well-formed invoice (C2). -/
def candsC2 : List String := ["AB12-C34-567"]

/-- Header after Tier 1 with `kvkNumber` missing but `vatNumber` present (C5). -/
def hdrC5 : InvoiceHeader :=
  { supplierName := some "Acme BV", invoiceNumber := some "2025-001"
    invoiceDate := some "2025-03-14", kvkNumber := none
    vatNumber := some "NL111111111B01" }

/-- A Tier 2 fallback response carrying both numbers (C5). -/
def respC5 : HeaderResult :=
  { invoiceHeader := { kvkNumber := some "84726180", vatNumber := some "NL999999999B99" }
    isCoachingInvoice := true }

/-- Registry with two codes sharing one canonical form (C9 ambiguous case). -/
def matcherAmb : ClientCaseMatcher := { codes := ["AB12-I34-567", "AB12-134-567"] }

/-- Registry with a single code reachable by canonicalisation (C9 fuzzy case). -/
def matcherFuzzy : ClientCaseMatcher := { codes := ["JN16-I21-284"] }

/-- An attempt stream that always fails transiently (C7). -/
def outcomesTransient : Nat → AgentOutcome := fun _ => .err "503 UNAVAILABLE"

/-- An attempt stream whose first failure is non-transient (C7). -/
def outcomesFatal : Nat → AgentOutcome := fun _ => .err "ValidationError: bad json"

/-- An attempt stream that fails transiently once and then non-transiently (C7). -/
def outcomesMixed : Nat → AgentOutcome := fun n =>
  if n = 0 then .err "503 UNAVAILABLE" else .err "ValidationError: bad json"

/-- An attempt stream that fails transiently once and then succeeds (C7). -/
def outcomesRecover : Nat → AgentOutcome := fun n =>
  if n = 0 then .err "503 UNAVAILABLE" else .ok 7

/-! ## Membership lemmas for the Python set/sort helpers -/

theorem mem_insertStr {x a : String} : ∀ {l : List String}, x ∈ insertStr a l ↔ x = a ∨ x ∈ l := by
  intro l
  induction l with
  | nil => simp [insertStr]
  | cons b t ih =>
    simp only [insertStr]
    split
    · simp [List.mem_cons]
    · simp [List.mem_cons, ih]
      tauto

theorem mem_insertionSortStr {x : String} : ∀ {l : List String},
    x ∈ insertionSortStr l ↔ x ∈ l := by
  intro l
  induction l with
  | nil => simp [insertionSortStr]
  | cons a t ih =>
    have : insertionSortStr (a :: t) = insertStr a (insertionSortStr t) := rfl
    rw [this, mem_insertStr]
    simp [List.mem_cons, ih]

theorem mem_pyDedup {x : String} : ∀ {l : List String}, x ∈ pyDedup l ↔ x ∈ l := by
  intro l
  induction l with
  | nil => simp [pyDedup]
  | cons a t ih =>
    simp only [pyDedup]
    split
    · rename_i hmem
      rw [ih]
      simp only [List.mem_cons]
      constructor
      · exact Or.inr
      · rintro (rfl | h)
        · exact hmem
        · exact h
    · simp [List.mem_cons, ih]

theorem mem_pySortedSet {x : String} {l : List String} : x ∈ pySortedSet l ↔ x ∈ l := by
  rw [pySortedSet, mem_insertionSortStr, mem_pyDedup]

/-! ## C1: allow-list enforcement on the final record -/

/-- C1: for every orchestrated invoice, after correction-map application and
allow-list enforcement the returned final record contains only validated
codes: every active entry carries a validated number belonging to
`allowed_cases_valid`, every no-activity member belongs to it, and every entry
whose code is not in the allow-list is dropped from both lists. -/
theorem C1_final_record_allowlist (hr : HeaderResult) (lrOpt : Option LineItemsResult)
    (cmap : List (String × String)) (allowed : List String) :
    (∀ c ∈ (finalizeInvoice hr lrOpt cmap allowed).clientCases,
        ∃ v, c.validatedClientCaseNumber = some v ∧ v ∈ allowed) ∧
    (∀ s ∈ (finalizeInvoice hr lrOpt cmap allowed).clientCasesNoActivity, s ∈ allowed) ∧
    (∀ c ∈ (applyClientCaseCorrections (assembleResult hr lrOpt) cmap).clientCases,
        (∀ v, c.validatedClientCaseNumber = some v → v ∉ allowed) →
        c ∉ (finalizeInvoice hr lrOpt cmap allowed).clientCases) ∧
    (∀ s ∈ (applyClientCaseCorrections (assembleResult hr lrOpt) cmap).clientCasesNoActivity,
        s ∉ allowed → s ∉ (finalizeInvoice hr lrOpt cmap allowed).clientCasesNoActivity) := by
  have hfin : finalizeInvoice hr lrOpt cmap allowed =
      enforceAllowedClientCases (applyClientCaseCorrections (assembleResult hr lrOpt) cmap)
        allowed := rfl
  set mid := applyClientCaseCorrections (assembleResult hr lrOpt) cmap with hmid
  rw [hfin]
  refine ⟨?_, ?_, ?_, ?_⟩
  · intro c hc
    rw [enforceAllowedClientCases] at hc
    simp only [List.mem_filter] at hc
    obtain ⟨-, hp⟩ := hc
    cases hv : c.validatedClientCaseNumber with
    | none => rw [hv] at hp; simp at hp
    | some v =>
      rw [hv] at hp
      exact ⟨v, rfl, by simpa using hp⟩
  · intro s hs
    rw [enforceAllowedClientCases] at hs
    simp only [mem_pySortedSet, List.mem_filter] at hs
    simpa using hs.2
  · intro c _ hnot hmem
    rw [enforceAllowedClientCases] at hmem
    simp only [List.mem_filter] at hmem
    obtain ⟨-, hp⟩ := hmem
    cases hv : c.validatedClientCaseNumber with
    | none => rw [hv] at hp; simp at hp
    | some v =>
      rw [hv] at hp
      exact hnot v hv (by simpa using hp)
  · intro s _ hnot hmem
    rw [enforceAllowedClientCases] at hmem
    simp only [mem_pySortedSet, List.mem_filter] at hmem
    exact hnot (by simpa using hmem.2)

/-- Witness for C1 at scenario S1: the corrected line of the final record
carries a validated code from the allow-list. -/
theorem C1_final_record_allowlist_witness :
    ∃ v, lineCorrected.validatedClientCaseNumber = some v ∧ v ∈ allowedS1 :=
  (C1_final_record_allowlist hrEmpty (some lrRaw) cmapS1 allowedS1).1 lineCorrected (by decide)

/-! ## C3: the ordered gatekeeper verdict rule -/

/-- C3: the pre-processor verdict follows the ordered rule: no CCN matches
gives `reject`; else any `unknown` or `ambiguous_io_swap` gives `reject`;
else any `fuzzy_io_swap` gives `needs_review`; else `accept`. -/
theorem C3_verdict_ordered_rule (ms : List (String × MatchResult)) :
    (evaluateClientCaseVerdict ms).verdict =
      if ms.isEmpty then "reject"
      else if ms.any (fun p =>
          p.2.match_status = .unknown ∨ p.2.match_status = .ambiguousIoSwap) then "reject"
      else if ms.any (fun p => p.2.match_status = .fuzzyIoSwap) then "needs_review"
      else "accept" := by
  simp only [evaluateClientCaseVerdict]
  by_cases hemp : ms.isEmpty = true
  · rw [if_pos hemp, if_pos hemp]
  · rw [if_neg hemp, if_neg hemp]
    have hcu : (0 < countStatus ms .unknown ∨ 0 < countStatus ms .ambiguousIoSwap) ↔
        (ms.any (fun p =>
          p.2.match_status = .unknown ∨ p.2.match_status = .ambiguousIoSwap) = true) := by
      simp only [countStatus, List.countP_pos_iff, List.any_eq_true]
      constructor
      · rintro (⟨p, hp, h⟩ | ⟨p, hp, h⟩) <;> exact ⟨p, hp, by simp_all⟩
      · rintro ⟨p, hp, h⟩
        simp only [decide_eq_true_eq] at h
        rcases h with h | h
        · exact Or.inl ⟨p, hp, by simp [h]⟩
        · exact Or.inr ⟨p, hp, by simp [h]⟩
    have hcf : (0 < countStatus ms .fuzzyIoSwap) ↔
        (ms.any (fun p => p.2.match_status = .fuzzyIoSwap) = true) := by
      simp [countStatus, List.countP_pos_iff, List.any_eq_true]
    by_cases h1 : 0 < countStatus ms .unknown ∨ 0 < countStatus ms .ambiguousIoSwap
    · rw [if_pos h1, if_pos (hcu.mp h1)]
    · rw [if_neg h1, if_neg (fun hh => h1 (hcu.mpr hh))]
      by_cases h2 : 0 < countStatus ms .fuzzyIoSwap
      · rw [if_pos h2, if_pos (hcf.mp h2)]
      · rw [if_neg h2, if_neg (fun hh => h2 (hcf.mpr hh))]

/-! ## C4: the zero-hours drain (corrected) -/

/-- C4 counterexample: the claim fails on `lrC4`.  The null-hours line without
a validated code is not moved into `clientCasesNoActivity` (which stays
empty), and the line with `durationHours = -1` — not strictly positive — is
retained in the active list. -/
theorem C4_zero_drain_cex :
    (postProcessLineItems lrC4).clientCases = [lineNegative] ∧
    lineNegative.durationHours = some (-1) ∧ ¬ ((0 : ℚ) < -1) ∧
    (postProcessLineItems lrC4).clientCasesNoActivity = [] ∧
    lineNullEmpty.durationHours = none := by
  refine ⟨by decide, rfl, by norm_num, by decide, rfl⟩

/-- C4 (amended): post-processing moves every line whose `durationHours` is
null or 0 *and whose validated code is truthy* into `clientCasesNoActivity`
(keyed by that code), and the active list retains exactly the lines whose
`durationHours` is non-null and non-zero (in particular a negative duration is
retained). -/
theorem C4_zero_drain_amended (lr : LineItemsResult) :
    (∀ c, c ∈ (postProcessLineItems lr).clientCases ↔
        (c ∈ lr.clientCases ∧ c.durationHours ≠ none ∧ c.durationHours ≠ some 0)) ∧
    (∀ c ∈ lr.clientCases, (c.durationHours = none ∨ c.durationHours = some 0) →
        ∀ v, c.validatedClientCaseNumber = some v → v ≠ "" →
        v ∈ (postProcessLineItems lr).clientCasesNoActivity) ∧
    (∀ s, s ∈ (postProcessLineItems lr).clientCasesNoActivity ↔
        (s ∈ lr.clientCasesNoActivity ∨
          ∃ c, c ∈ lr.clientCases ∧ (c.durationHours = none ∨ c.durationHours = some 0) ∧
            c.validatedClientCaseNumber = some s ∧ s ≠ "")) := by
  have hzero : ∀ c : ClientCase,
      zeroHours c = true ↔ (c.durationHours = none ∨ c.durationHours = some 0) := by
    intro c
    cases h : c.durationHours with
    | none => simp [zeroHours, h]
    | some q => simp [zeroHours, h]
  have hmoved : ∀ (c : ClientCase) (v : String), movedCode c = some v ↔
      ((c.durationHours = none ∨ c.durationHours = some 0) ∧
        c.validatedClientCaseNumber = some v ∧ v ≠ "") := by
    intro c v
    rw [movedCode]
    by_cases hz : zeroHours c = true
    · rw [if_pos hz, ← hzero c]
      cases hv : c.validatedClientCaseNumber with
      | none =>
        constructor
        · intro h; exact absurd h (by simp)
        · rintro ⟨-, hvv, -⟩; exact absurd hvv (by simp)
      | some w =>
        by_cases hw : w = ""
        · subst hw
          simp only [if_pos rfl]
          constructor
          · intro h; exact absurd h (by simp)
          · rintro ⟨-, hvv, hne⟩
            exact absurd (Option.some_inj.mp hvv).symm hne
        · simp only [if_neg hw, Option.some_inj]
          constructor
          · rintro rfl; exact ⟨hz, rfl, hw⟩
          · rintro ⟨-, hvv, -⟩; exact hvv
    · rw [if_neg hz]
      constructor
      · intro h; exact absurd h (by simp)
      · rintro ⟨hnull, -, -⟩
        exact absurd ((hzero c).mpr hnull) hz
  refine ⟨?_, ?_, ?_⟩
  · intro c
    rw [postProcessLineItems]
    simp only [List.mem_filter, Bool.not_eq_true']
    rw [← Bool.not_eq_true (zeroHours c), hzero c]
    tauto
  · intro c hc hnull v hval hv
    rw [postProcessLineItems]
    simp only [mem_pySortedSet, List.mem_append, List.mem_filterMap]
    exact Or.inr ⟨c, hc, (hmoved c v).mpr ⟨hnull, hval, hv⟩⟩
  · intro s
    rw [postProcessLineItems]
    simp only [mem_pySortedSet, List.mem_append, List.mem_filterMap]
    constructor
    · rintro (h | ⟨c, hc, hm⟩)
      · exact Or.inl h
      · obtain ⟨hnull, hval, hs⟩ := (hmoved c s).mp hm
        exact Or.inr ⟨c, hc, hnull, hval, hs⟩
    · rintro (h | ⟨c, hc, hnull, hval, hs⟩)
      · exact Or.inl h
      · exact Or.inr ⟨c, hc, (hmoved c s).mpr ⟨hnull, hval, hs⟩⟩

/-- Witness for the amended C4: the null-hours coded line of `lrC4w` is moved
to the no-activity list under its validated code. -/
theorem C4_zero_drain_witness :
    "AB12-C34-567" ∈ (postProcessLineItems lrC4w).clientCasesNoActivity :=
  (C4_zero_drain_amended lrC4w).2.1 lineNullCoded (by decide) (Or.inl rfl)
    "AB12-C34-567" rfl (by decide)

/-! ## C10: lines that are both zero-hours and code-less vanish -/

/-- C10: a line whose `durationHours` is null or 0 and whose validated code is
null or empty is removed entirely by post-processing: the output equals the
output on the input without that line, and the line is in neither output
list. -/
theorem C10_zero_hour_uncoded_line_removed (lr : LineItemsResult) (c : ClientCase)
    (pre post : List ClientCase)
    (hsplit : lr.clientCases = pre ++ c :: post)
    (hz : c.durationHours = none ∨ c.durationHours = some 0)
    (hcode : c.validatedClientCaseNumber = none ∨ c.validatedClientCaseNumber = some "") :
    postProcessLineItems lr = postProcessLineItems { lr with clientCases := pre ++ post } ∧
    c ∉ (postProcessLineItems lr).clientCases := by
  have hzero : zeroHours c = true := by
    rcases hz with h | h <;> simp [zeroHours, h]
  have hmov : movedCode c = none := by
    rw [movedCode, if_pos hzero]
    rcases hcode with h | h <;> simp [h]
  constructor
  · rw [postProcessLineItems, postProcessLineItems]
    simp only [hsplit, List.filter_append, List.filterMap_append, List.filter_cons,
      List.filterMap_cons_none hmov, hzero]
    simp
  · intro hmem
    rw [postProcessLineItems] at hmem
    simp only [List.mem_filter, Bool.not_eq_true'] at hmem
    rw [hzero] at hmem
    exact absurd hmem.2 (by simp)

/-- Witness for C10: the zero-hours empty-code line of `lrC10` contributes
nothing to the post-processed result. -/
theorem C10_zero_hour_uncoded_line_removed_witness :
    postProcessLineItems lrC10 =
      postProcessLineItems { lrC10 with clientCases := [] ++ [lineKept] } ∧
    lineZeroEmptyCode ∉ (postProcessLineItems lrC10).clientCases :=
  C10_zero_hour_uncoded_line_removed lrC10 lineZeroEmptyCode [] [lineKept] rfl
    (Or.inr rfl) (Or.inr rfl)

/-! ## C2: missing registry file (corrected) -/

/-- C2 counterexample: with the matcher disabled (missing registry) and a
well-formed candidate list, annotation is indeed skipped, but the verdict is
`reject`, not `accept`: the absent match information is evaluated as "no CCNs
found". -/
theorem C2_registry_missing_cex :
    annotateClientCases none candsC2 = none ∧
    preprocessVerdict none candsC2 = "reject" ∧
    preprocessVerdict none candsC2 ≠ "accept" := by
  refine ⟨rfl, rfl, by decide⟩

/-- C2 (amended): if the registry file is missing, the matcher is disabled and
CCN annotation is skipped, and the verdict — for any candidate list, including
otherwise well-formed invoices — is `reject` (absent match info is treated as
"no CCNs found"), so the invoice is never marked `ready_for_llm`. -/
theorem C2_registry_missing_amended (cands : List String) (textLength : Nat) :
    annotateClientCases none cands = none ∧
    preprocessVerdict none cands = "reject" ∧
    readyForLLM (!cands.isEmpty) textLength (preprocessVerdict none cands) = false := by
  refine ⟨rfl, rfl, ?_⟩
  have hv : preprocessVerdict none cands = "reject" := rfl
  rw [readyForLLM, hv]
  simp

/-! ## C5: the Tier 2 merge (corrected) -/

/-- C5 counterexample: Tier 2 triggers on `hdrC5` (its `kvkNumber` is
missing), `vatNumber` already holds a value, and the merge nevertheless
replaces that value with the fallback response's `vatNumber`. -/
theorem C5_tier2_overwrites_cex :
    tier2Triggered hdrC5 = true ∧
    optTruthy hdrC5.vatNumber = true ∧
    (tier2Merge hdrC5 (some respC5)).vatNumber ≠ hdrC5.vatNumber := by
  refine ⟨rfl, rfl, by decide⟩

/-- C5 (amended): whenever the Tier 2 fallback runs, only `kvkNumber` and
`vatNumber` can change — `supplierName`, `invoiceNumber` and `invoiceDate` are
unchanged, and a `None` response changes nothing — but each of the two numbers
is overwritten exactly when the response carries a truthy value for it, even
if the field already held a value. -/
theorem C5_tier2_merge_amended (h : InvoiceHeader) (resp : Option HeaderResult) :
    (tier2Merge h resp).supplierName = h.supplierName ∧
    (tier2Merge h resp).invoiceNumber = h.invoiceNumber ∧
    (tier2Merge h resp).invoiceDate = h.invoiceDate ∧
    (resp = none → tier2Merge h resp = h) ∧
    (∀ nh, resp = some nh →
      (tier2Merge h resp).kvkNumber =
        (if optTruthy nh.invoiceHeader.kvkNumber then nh.invoiceHeader.kvkNumber
         else h.kvkNumber) ∧
      (tier2Merge h resp).vatNumber =
        (if optTruthy nh.invoiceHeader.vatNumber then nh.invoiceHeader.vatNumber
         else h.vatNumber)) := by
  cases resp with
  | none => exact ⟨rfl, rfl, rfl, fun _ => rfl, fun nh hcon => by cases hcon⟩
  | some nh =>
    refine ⟨?_, ?_, ?_, ?_, ?_⟩
    · simp only [tier2Merge]; split_ifs <;> rfl
    · simp only [tier2Merge]; split_ifs <;> rfl
    · simp only [tier2Merge]; split_ifs <;> rfl
    · intro hcon; cases hcon
    · intro nh2 hsome
      injection hsome with hnh
      subst hnh
      constructor
      · simp only [tier2Merge]; split_ifs <;> rfl
      · simp only [tier2Merge]; split_ifs <;> rfl

/-- Witness for the amended C5 at `hdrC5` / `respC5`. -/
theorem C5_tier2_merge_amended_witness :
    (tier2Merge hdrC5 (some respC5)).kvkNumber =
      (if optTruthy respC5.invoiceHeader.kvkNumber then respC5.invoiceHeader.kvkNumber
       else hdrC5.kvkNumber) ∧
    (tier2Merge hdrC5 (some respC5)).vatNumber =
      (if optTruthy respC5.invoiceHeader.vatNumber then respC5.invoiceHeader.vatNumber
       else hdrC5.vatNumber) :=
  (C5_tier2_merge_amended hdrC5 (some respC5)).2.2.2.2 respC5 rfl

/-! ## C9: provenance of the contamination flag -/

/-- C9: a match with status `ambiguous_io_swap` always carries contamination
`"none"`, regardless of the `I`/`O` glyphs of the original code, and a match
with status `fuzzy_io_swap` carries the contamination computed from the
matched registry code, not from the original code. -/
theorem C9_contamination_source (m : ClientCaseMatcher) (code : String) :
    ((m.matchCode code).match_status = .ambiguousIoSwap →
      (m.matchCode code).contamination = .cNone) ∧
    ((m.matchCode code).match_status = .fuzzyIoSwap →
      ∃ mc, (m.matchCode code).matched_code = some mc ∧
        (m.matchCode code).contamination = contamination_flag mc) := by
  simp only [ClientCaseMatcher.matchCode]
  split
  · exact ⟨fun h => by simp at h, fun h => by simp at h⟩
  · split
    · exact ⟨fun h => by simp at h, fun h => by simp at h⟩
    · split
      · exact ⟨fun h => by simp at h, fun h => by simp at h⟩
      · exact ⟨fun h => by simp at h, fun _ => ⟨_, rfl, rfl⟩⟩
      · exact ⟨fun _ => rfl, fun h => by simp at h⟩

/-- Witness for C9: an ambiguous lookup of an `i`-contaminated code reports
contamination `"none"`, and a fuzzy lookup reports the contamination of the
matched registry code. -/
theorem C9_contamination_source_witness :
    (matcherAmb.matchCode "AB12-i34-567").contamination = Contamination.cNone ∧
    (∃ mc, (matcherFuzzy.matchCode "JN16-121-284").matched_code = some mc ∧
      (matcherFuzzy.matchCode "JN16-121-284").contamination = contamination_flag mc) :=
  ⟨(C9_contamination_source matcherAmb "AB12-i34-567").1 (by decide),
   (C9_contamination_source matcherFuzzy "JN16-121-284").2 (by decide)⟩

/-! ## C7: retry policy of the agent wrapper -/

theorem runAgentFrom_transient (outcomes : Nat → AgentOutcome) (maxRetries : Nat) :
    ∀ (fuel attempt : Nat), attempt + fuel = maxRetries + 1 →
    (∀ i, attempt ≤ i → i ≤ maxRetries →
      ∃ msg, outcomes i = .err msg ∧ isTransientError msg = true) →
    runAgentFrom outcomes maxRetries attempt fuel =
      { result := none, attemptsMade := fuel
        waits := (List.range' attempt (fuel - 1)).map (fun i => 2 * 2 ^ i) } := by
  intro fuel
  induction fuel with
  | zero => intro attempt _ _; rfl
  | succ f ih =>
    intro attempt hsum hall
    have hle : attempt ≤ maxRetries := by omega
    obtain ⟨msg, hmsg, htr⟩ := hall attempt le_rfl hle
    rw [runAgentFrom]
    simp only [hmsg]
    cases f with
    | zero =>
      rw [if_neg (fun hc => absurd hc.2 (by omega))]
      simp
    | succ g =>
      have hlt : attempt < maxRetries := by omega
      rw [if_pos ⟨htr, hlt⟩,
        ih (attempt + 1) (by omega) (fun i hi1 hi2 => hall i (by omega) hi2)]
      simp [List.range'_succ]

theorem runAgentFrom_skip (outcomes : Nat → AgentOutcome) (maxRetries : Nat) :
    ∀ (k attempt fuel : Nat), attempt + fuel = maxRetries + 1 → attempt + k ≤ maxRetries →
    (∀ i, attempt ≤ i → i < attempt + k →
      ∃ m, outcomes i = .err m ∧ isTransientError m = true) →
    runAgentFrom outcomes maxRetries attempt fuel =
      { result := (runAgentFrom outcomes maxRetries (attempt + k) (fuel - k)).result
        attemptsMade :=
          (runAgentFrom outcomes maxRetries (attempt + k) (fuel - k)).attemptsMade + k
        waits := (List.range' attempt k).map (fun i => 2 * 2 ^ i) ++
          (runAgentFrom outcomes maxRetries (attempt + k) (fuel - k)).waits } := by
  intro k
  induction k with
  | zero =>
    intro attempt fuel _ _ _
    simp
  | succ n ih =>
    intro attempt fuel hsum hk hpre
    cases fuel with
    | zero => omega
    | succ f =>
      obtain ⟨msg, hmsg, htr⟩ := hpre attempt le_rfl (by omega)
      rw [runAgentFrom]
      simp only [hmsg]
      rw [if_pos ⟨htr, by omega⟩]
      rw [ih (attempt + 1) f (by omega) (by omega)
        (fun i h1 h2 => hpre i (by omega) (by omega))]
      have e1 : attempt + (n + 1) = attempt + 1 + n := by omega
      have e2 : f + 1 - (n + 1) = f - n := by omega
      rw [e1, e2]
      simp [List.range'_succ, Nat.add_assoc]

/-- C7: a run whose attempts all fail transiently performs `max_retries`
retries — `max_retries + 1` attempts in all — sleeping `2 * 2 ^ attempt`
before each retry, and returns `None`; a non-transient failure at any attempt
`k` (after `k` transient failures, each retried after its backoff) ends the
call at once with `None`, after exactly `k + 1` attempts and no further
backoff; and a success at attempt `k` after `k` transient failures returns
that value with exactly `k + 1` attempts. -/
theorem C7_retry_policy (outcomes : Nat → AgentOutcome) (maxRetries : Nat) :
    ((∀ i, i ≤ maxRetries → ∃ msg, outcomes i = .err msg ∧ isTransientError msg = true) →
      runAgent outcomes maxRetries =
        { result := none, attemptsMade := maxRetries + 1
          waits := (List.range maxRetries).map (fun i => 2 * 2 ^ i) }) ∧
    (∀ k msg, k ≤ maxRetries →
      (∀ i, i < k → ∃ m, outcomes i = .err m ∧ isTransientError m = true) →
      outcomes k = .err msg → isTransientError msg = false →
      runAgent outcomes maxRetries =
        { result := none, attemptsMade := k + 1
          waits := (List.range k).map (fun i => 2 * 2 ^ i) }) ∧
    (∀ k v, k ≤ maxRetries →
      (∀ i, i < k → ∃ m, outcomes i = .err m ∧ isTransientError m = true) →
      outcomes k = .ok v →
      runAgent outcomes maxRetries =
        { result := some v, attemptsMade := k + 1
          waits := (List.range k).map (fun i => 2 * 2 ^ i) }) := by
  refine ⟨?_, ?_, ?_⟩
  · intro hall
    rw [runAgent,
      runAgentFrom_transient outcomes maxRetries (maxRetries + 1) 0 (by omega)
        (fun i _ hi => hall i hi)]
    simp [List.range_eq_range']
  · intro k msg hk hpre hmsg htr
    rw [runAgent,
      runAgentFrom_skip outcomes maxRetries k 0 (maxRetries + 1) (by omega) (by omega)
        (fun i _ h2 => hpre i (by omega))]
    have e1 : (0 : Nat) + k = k := by omega
    have e2 : maxRetries + 1 - k = (maxRetries - k) + 1 := by omega
    rw [e1, e2, runAgentFrom]
    simp only [hmsg]
    rw [if_neg (fun hc => by rw [htr] at hc; exact absurd hc.1 (by simp))]
    simp [List.range_eq_range', Nat.add_comm]
  · intro k v hk hpre hok
    rw [runAgent,
      runAgentFrom_skip outcomes maxRetries k 0 (maxRetries + 1) (by omega) (by omega)
        (fun i _ h2 => hpre i (by omega))]
    have e1 : (0 : Nat) + k = k := by omega
    have e2 : maxRetries + 1 - k = (maxRetries - k) + 1 := by omega
    rw [e1, e2, runAgentFrom]
    simp only [hok]
    simp [List.range_eq_range', Nat.add_comm]

/-- Witness for C7 at `max_retries = 3` (the default): four attempts with
backoffs 2, 4, 8 on an always-503 stream; a 503 followed by a validation
failure stops with `None` after two attempts and one backoff; a 503 followed
by a success returns the value after two attempts and one backoff. -/
theorem C7_retry_policy_witness :
    runAgent outcomesTransient 3 =
      { result := none, attemptsMade := 4, waits := [2, 4, 8] } ∧
    runAgent outcomesMixed 3 = { result := none, attemptsMade := 2, waits := [2] } ∧
    runAgent outcomesRecover 3 = { result := some 7, attemptsMade := 2, waits := [2] } := by
  refine ⟨?_, ?_, ?_⟩
  · have h := (C7_retry_policy outcomesTransient 3).1
      (fun i _ => ⟨"503 UNAVAILABLE", rfl, by decide⟩)
    rw [h]
    decide
  · have h := (C7_retry_policy outcomesMixed 3).2.1 1 "ValidationError: bad json" (by omega)
      (by
        intro i hi
        have h0 : i = 0 := by omega
        subst h0
        exact ⟨"503 UNAVAILABLE", rfl, by decide⟩)
      rfl (by decide)
    rw [h]
    decide
  · have h := (C7_retry_policy outcomesRecover 3).2.2 1 7 (by omega)
      (by
        intro i hi
        have h0 : i = 0 := by omega
        subst h0
        exact ⟨"503 UNAVAILABLE", rfl, by decide⟩)
      rfl
    rw [h]
    decide

/-! ## C6: decimal-separator detection in amount parsing (corrected) -/

theorem splitOnChar_ne_nil (c : Char) : ∀ l : List Char, splitOnChar c l ≠ [] := by
  intro l
  induction l with
  | nil => simp [splitOnChar]
  | cons x t ih =>
    simp only [splitOnChar]
    split
    · simp
    · split <;> simp

theorem length_splitOnChar (c : Char) :
    ∀ l : List Char, (splitOnChar c l).length = l.count c + 1 := by
  intro l
  induction l with
  | nil => simp [splitOnChar]
  | cons x t ih =>
    simp only [splitOnChar]
    by_cases hx : x = c
    · rw [if_pos hx]
      simp only [List.length_cons, ih, List.count_cons]
      simp [hx]
    · rw [if_neg hx]
      cases hr : splitOnChar c t with
      | nil => exact absurd hr (splitOnChar_ne_nil c t)
      | cons g gs =>
        rw [hr] at ih
        simp only [hr]
        simp only [List.length_cons] at ih ⊢
        simp only [List.count_cons]
        simp [hx]
        omega

/-- C6 counterexample: on `"1,234,56"` (only commas) the fractional group
after the last comma has exactly two digits, so the claim mandates treating
the comma as the decimal separator; the code instead strips the commas as
thousand-grouping and returns `123456`, which is not the claim's reading. -/
theorem C6_amount_separator_cex :
    specOnlyCommaDecimal ("1,234,56".data) = true ∧
    parseAmount "1,234,56" = some 123456 ∧
    specParseOnlyComma ("1,234,56".data) = none ∧
    parseAmount "1,234,56" ≠ specParseOnlyComma ("1,234,56".data) := by
  refine ⟨by decide, by decide, by decide, by decide⟩

/-- C6 (amended): with both `,` and `.` present the rightmost occurrence is
the decimal separator and the other character is stripped as grouping; with
only `,` present the code treats the comma as decimal separator iff the digit
group immediately after the *first* comma has exactly two digits — which
coincides with the spec's fractional-group rule whenever the string has a
single comma. -/
theorem C6_amount_separator_amended (s : String) (clean : List Char)
    (hclean : clean = s.data.filter (fun c => ¬ c = ' ')) :
    (',' ∈ clean → '.' ∈ clean →
      parseAmount s =
        if (rindexOf ',' clean).getD 0 > (rindexOf '.' clean).getD 0 then
          pyFloatL (commaToDot (stripDots clean))
        else pyFloatL (stripCommas clean)) ∧
    (',' ∈ clean → '.' ∉ clean →
      parseAmount s =
        if ((splitOnChar ',' clean).getD 1 []).length = 2 then pyFloatL (commaToDot clean)
        else pyFloatL (stripCommas clean)) ∧
    (',' ∈ clean → '.' ∉ clean → clean.count ',' = 1 →
      parseAmount s = specParseOnlyComma clean) := by
  subst hclean
  refine ⟨?_, ?_, ?_⟩
  · intro h1 h2
    simp only [parseAmount]
    rw [if_pos ⟨h1, h2⟩]
  · intro h1 h2
    simp only [parseAmount]
    rw [if_neg (fun hc => h2 hc.2), if_pos h1]
  · intro h1 h2 hcount
    have hlen : (splitOnChar ',' (s.data.filter (fun c => ¬ c = ' '))).length = 2 := by
      rw [length_splitOnChar, hcount]
    obtain ⟨a, b, hab⟩ := List.length_eq_two.mp hlen
    simp only [parseAmount]
    rw [if_neg (fun hc => h2 hc.2), if_pos h1, specParseOnlyComma, specOnlyCommaDecimal, hab]
    simp [List.getLastD]

/-- Witness for the amended C6 at the single-comma string `"1,23"`: the code's
first-group test agrees with the spec's fractional-group rule there. -/
theorem C6_amount_separator_amended_witness :
    parseAmount "1,23" = specParseOnlyComma ("1,23".data.filter (fun c => ¬ c = ' ')) :=
  (C6_amount_separator_amended "1,23" ("1,23".data.filter (fun c => ¬ c = ' ')) rfl).2.2
    (by decide) (by decide) (by decide)

/-! ## C8: idempotence of CCN canonicalisation -/

theorem toNat_charOfNat_lt {n : Nat} (h : n < 55296) : (Char.ofNat n).toNat = n := by
  rw [Char.ofNat, dif_pos (Or.inl h)]
  rfl

theorem toNat_pyUpperChar_lower {c : Char} (h : 97 ≤ c.toNat ∧ c.toNat ≤ 122) :
    (pyUpperChar c).toNat = c.toNat - 32 := by
  rw [pyUpperChar, if_pos h]
  exact toNat_charOfNat_lt (by omega)

theorem pyUpperChar_of_not_lower {c : Char} (h : ¬(97 ≤ c.toNat ∧ c.toNat ≤ 122)) :
    pyUpperChar c = c := by
  rw [pyUpperChar, if_neg h]

theorem pyUpperChar_idem (c : Char) : pyUpperChar (pyUpperChar c) = pyUpperChar c := by
  by_cases h : 97 ≤ c.toNat ∧ c.toNat ≤ 122
  · have h2 := toNat_pyUpperChar_lower h
    exact pyUpperChar_of_not_lower (by omega)
  · have h2 := pyUpperChar_of_not_lower h
    rw [h2, h2]

theorem isPySpace_pyUpperChar (c : Char) : isPySpace (pyUpperChar c) = isPySpace c := by
  by_cases h : 97 ≤ c.toNat ∧ c.toNat ≤ 122
  · have h2 := toNat_pyUpperChar_lower h
    have l1 : isPySpace (pyUpperChar c) = false := by
      simp only [isPySpace, h2, decide_eq_false_iff_not]
      omega
    have l2 : isPySpace c = false := by
      simp only [isPySpace, decide_eq_false_iff_not]
      omega
    rw [l1, l2]
  · rw [pyUpperChar_of_not_lower h]

theorem ioSwapChar_of_ne {c : Char} (h1 : c ≠ 'I') (h2 : c ≠ 'O') : ioSwapChar c = c := by
  rw [ioSwapChar, if_neg h1, if_neg h2]

theorem ioSwapChar_ne_I (c : Char) : ioSwapChar c ≠ 'I' := by
  by_cases h1 : c = 'I'
  · subst h1; decide
  · by_cases h2 : c = 'O'
    · subst h2; decide
    · rw [ioSwapChar_of_ne h1 h2]; exact h1

theorem ioSwapChar_ne_O (c : Char) : ioSwapChar c ≠ 'O' := by
  by_cases h1 : c = 'I'
  · subst h1; decide
  · by_cases h2 : c = 'O'
    · subst h2; decide
    · rw [ioSwapChar_of_ne h1 h2]; exact h2

theorem ioSwapChar_idem (c : Char) : ioSwapChar (ioSwapChar c) = ioSwapChar c :=
  ioSwapChar_of_ne (ioSwapChar_ne_I c) (ioSwapChar_ne_O c)

theorem pyUpperChar_ioSwapChar {c : Char} (h : pyUpperChar c = c) :
    pyUpperChar (ioSwapChar c) = ioSwapChar c := by
  by_cases h1 : c = 'I'
  · subst h1; decide
  · by_cases h2 : c = 'O'
    · subst h2; decide
    · rw [ioSwapChar_of_ne h1 h2]; exact h

theorem isPySpace_ioSwapChar (c : Char) : isPySpace (ioSwapChar c) = isPySpace c := by
  by_cases h1 : c = 'I'
  · subst h1; decide
  · by_cases h2 : c = 'O'
    · subst h2; decide
    · rw [ioSwapChar_of_ne h1 h2]

theorem head?_dropWhile_not (p : Char → Bool) :
    ∀ (l : List Char) (x : Char), (l.dropWhile p).head? = some x → p x = false := by
  intro l
  induction l with
  | nil => intro x h; simp [List.dropWhile] at h
  | cons a t ih =>
    intro x h
    rw [List.dropWhile_cons] at h
    by_cases hp : p a
    · rw [if_pos hp] at h
      exact ih x h
    · rw [if_neg hp] at h
      simp only [List.head?_cons, Option.some_inj] at h
      subst h
      cases hpa : p a
      · rfl
      · exact absurd hpa hp

theorem getLast?_dropWhile_some (p : Char → Bool) (l : List Char) (x : Char)
    (h : (l.dropWhile p).getLast? = some x) : l.getLast? = some x := by
  obtain ⟨u, hu⟩ := List.dropWhile_suffix p (l := l)
  rw [← hu, List.getLast?_append, h]
  rfl

theorem head?_pyStripL_not_space (l : List Char) (x : Char)
    (h : (pyStripL l).head? = some x) : isPySpace x = false := by
  rw [pyStripL, dropTrailSpace, List.head?_reverse] at h
  have h2 := getLast?_dropWhile_some isPySpace _ x h
  rw [List.getLast?_reverse] at h2
  exact head?_dropWhile_not isPySpace l x h2

theorem getLast?_pyStripL_not_space (l : List Char) (x : Char)
    (h : (pyStripL l).getLast? = some x) : isPySpace x = false := by
  rw [pyStripL, dropTrailSpace, List.getLast?_reverse] at h
  exact head?_dropWhile_not isPySpace _ x h

theorem dropWhile_eq_self_of_head (p : Char → Bool) (l : List Char)
    (h : ∀ x, l.head? = some x → p x = false) : l.dropWhile p = l := by
  cases l with
  | nil => rfl
  | cons a t =>
    rw [List.dropWhile_cons, if_neg (by simp [h a rfl])]

theorem pyStripL_eq_self (l : List Char)
    (hh : ∀ x, l.head? = some x → isPySpace x = false)
    (hl : ∀ x, l.getLast? = some x → isPySpace x = false) : pyStripL l = l := by
  rw [pyStripL, dropWhile_eq_self_of_head _ _ hh, dropTrailSpace,
    dropWhile_eq_self_of_head _ _ (fun x hx => hl x (by rwa [List.head?_reverse] at hx)),
    List.reverse_reverse]

theorem upperMap_idem (l : List Char) :
    (l.map pyUpperChar).map pyUpperChar = l.map pyUpperChar := by
  rw [List.map_map]
  exact List.map_congr_left (fun a _ => pyUpperChar_idem a)

theorem getElem?_swapAtPos (l : List Char) (p j : Nat) :
    (swapAtPos l p)[j]? = l[j]?.map (fun x => if j = p then ioSwapChar x else x) := by
  rw [swapAtPos]
  split
  · rename_i hp
    by_cases hj : j = p
    · subst hj
      rw [List.getElem?_set_self hp, List.getElem?_eq_getElem hp]
      simp
    · rw [List.getElem?_set_ne (fun hh => hj hh.symm)]
      cases l[j]? <;> simp [hj]
  · rename_i hp
    by_cases hj : j = p
    · subst hj
      rw [List.getElem?_eq_none (by omega)]
      rfl
    · cases l[j]? <;> simp [hj]

theorem length_swapAtPos (l : List Char) (pos : Nat) : (swapAtPos l pos).length = l.length := by
  rw [swapAtPos]
  split
  · rw [List.length_set]
  · rfl

theorem length_canonSubs (l : List Char) : (canonSubs l).length = l.length := by
  rw [canonSubs, length_swapAtPos, length_swapAtPos, length_swapAtPos]

theorem getElem?_canonSubs (l : List Char) (j : Nat) :
    (canonSubs l)[j]? = l[j]?.map
      (fun x => if j = 0 ∨ j = 1 ∨ j = 5 then ioSwapChar x else x) := by
  rw [canonSubs, getElem?_swapAtPos, getElem?_swapAtPos, getElem?_swapAtPos,
    Option.map_map, Option.map_map]
  cases l[j]? with
  | none => rfl
  | some x =>
    by_cases h0 : j = 0
    · subst h0; simp
    · by_cases h1 : j = 1
      · subst h1; simp
      · by_cases h5 : j = 5
        · subst h5; simp
        · simp [h0, h1, h5]

theorem canonSubs_idem (l : List Char) : canonSubs (canonSubs l) = canonSubs l := by
  apply List.ext_getElem?
  intro j
  rw [getElem?_canonSubs, getElem?_canonSubs, Option.map_map]
  cases l[j]? with
  | none => rfl
  | some x =>
    by_cases hj : j = 0 ∨ j = 1 ∨ j = 5
    · simp [hj, ioSwapChar_idem]
    · simp [hj]

theorem upperMap_canonSubs {l : List Char} (hup : l.map pyUpperChar = l) :
    (canonSubs l).map pyUpperChar = canonSubs l := by
  have hpt : ∀ (j : Nat) (x : Char), l[j]? = some x → pyUpperChar x = x := by
    intro j x hx
    have hcg := congrArg (fun t => t[j]?) hup
    simp only [List.getElem?_map, hx] at hcg
    simpa using hcg
  apply List.ext_getElem?
  intro j
  rw [List.getElem?_map, getElem?_canonSubs, Option.map_map]
  cases hx : l[j]? with
  | none => rfl
  | some x =>
    have hx2 := hpt j x hx
    by_cases hj : j = 0 ∨ j = 1 ∨ j = 5
    · simp [hj, pyUpperChar_ioSwapChar hx2]
    · simp [hj, hx2]

theorem head?_canonSubs (l : List Char) :
    (canonSubs l).head? = l.head?.map ioSwapChar := by
  rw [List.head?_eq_getElem?, List.head?_eq_getElem?, getElem?_canonSubs]
  cases l[0]? <;> simp

theorem getLast?_canonSubs {l : List Char} (h11 : 11 ≤ l.length) :
    (canonSubs l).getLast? = l.getLast? := by
  rw [List.getLast?_eq_getElem?, List.getLast?_eq_getElem?, length_canonSubs,
    getElem?_canonSubs]
  have hj : ¬(l.length - 1 = 0 ∨ l.length - 1 = 1 ∨ l.length - 1 = 5) := by omega
  cases l[l.length - 1]? with
  | none => rfl
  | some v => exact congrArg some (if_neg hj)

theorem canonList_fix {m : List Char} (hstrip : pyStripL m = m)
    (hupper : m.map pyUpperChar = m) (hsub : 11 ≤ m.length → canonSubs m = m) :
    canonList m = m := by
  simp only [canonList, hstrip, hupper]
  by_cases hlen : m.length < 11
  · rw [if_pos hlen]
  · rw [if_neg hlen]
    exact hsub (by omega)

theorem canonList_idem (l : List Char) : canonList (canonList l) = canonList l := by
  have hcHead : ∀ x, ((pyStripL l).map pyUpperChar).head? = some x → isPySpace x = false := by
    intro x hx
    rw [List.head?_map] at hx
    cases hy : (pyStripL l).head? with
    | none => rw [hy] at hx; cases hx
    | some y =>
      rw [hy] at hx
      have hxy : pyUpperChar y = x := by simpa using hx
      rw [← hxy, isPySpace_pyUpperChar]
      exact head?_pyStripL_not_space l y hy
  have hcLast : ∀ x, ((pyStripL l).map pyUpperChar).getLast? = some x →
      isPySpace x = false := by
    intro x hx
    rw [List.getLast?_map] at hx
    cases hy : (pyStripL l).getLast? with
    | none => rw [hy] at hx; cases hx
    | some y =>
      rw [hy] at hx
      have hxy : pyUpperChar y = x := by simpa using hx
      rw [← hxy, isPySpace_pyUpperChar]
      exact getLast?_pyStripL_not_space l y hy
  have hcUpper : ((pyStripL l).map pyUpperChar).map pyUpperChar =
      (pyStripL l).map pyUpperChar := upperMap_idem (pyStripL l)
  have hcStrip : pyStripL ((pyStripL l).map pyUpperChar) = (pyStripL l).map pyUpperChar :=
    pyStripL_eq_self _ hcHead hcLast
  by_cases hlen : ((pyStripL l).map pyUpperChar).length < 11
  · have hl1 : canonList l = (pyStripL l).map pyUpperChar := by
      simp only [canonList]
      rw [if_pos hlen]
    rw [hl1]
    exact canonList_fix hcStrip hcUpper (fun h11 => absurd h11 (by omega))
  · have hl1 : canonList l = canonSubs ((pyStripL l).map pyUpperChar) := by
      simp only [canonList]
      rw [if_neg hlen]
    rw [hl1]
    apply canonList_fix
    · apply pyStripL_eq_self
      · intro x hx
        rw [head?_canonSubs] at hx
        cases hy : ((pyStripL l).map pyUpperChar).head? with
        | none => rw [hy] at hx; cases hx
        | some y =>
          rw [hy] at hx
          have hxy : ioSwapChar y = x := by simpa using hx
          rw [← hxy, isPySpace_ioSwapChar]
          exact hcHead y hy
      · intro x hx
        rw [getLast?_canonSubs (by omega)] at hx
        exact hcLast x hx
    · exact upperMap_canonSubs hcUpper
    · intro _
      exact canonSubs_idem _

/-- C8: CCN canonicalisation is idempotent: stripping, upper-casing and
substituting `I → 1` / `O → 0` at the letter positions 0, 1, 5 is a fixed
point of itself — `canon (canon x) = canon x` for every string `x`. -/
theorem C8_canonicalisation_idempotent (s : String) :
    canonical_case_number (canonical_case_number s) = canonical_case_number s :=
  congrArg String.mk (canonList_idem s.data)
